import Mathlib

/-!
Verification of the collage layout engine of
`src/autfolio/portfolio-generator-v4-active.py`.

The Python functions are shallowly embedded as Lean definitions:
floating point arithmetic is idealised as exact rational arithmetic (ℚ),
Python `None`-returning functions become `Option`, and functions that can
raise (`ValueError` from `max()` on an empty sequence, `ZeroDivisionError`)
become `Except String`.  Python's seeded Mersenne-Twister generator is
abstracted as an arbitrary deterministic state-transition function
(`PickFn`): `random.choices(population, weights)` is modelled as drawing an
index from the state and selecting that element of the population, which is
exactly the contract the layout code relies on.

Names follow the source where the banned-free character set allows it; a few
source identifiers are shortened (`aspect_ratio` ↦ `ar`,
`get_image_aspect_ratio` ↦ `get_image_ar`, `*_ASPECT_RATIO*` constants ↦
`*_THRESHOLD`).
-/

namespace Portfolio

/-! ## Configuration constants (lines 34-47 of the source) -/

/-- Source constant `PANORAMIC_ASPECT_RATIO = 2`. -/
def PANORAMIC_THRESHOLD : ℚ := 2

/-- Source constant `VERTICAL_ASPECT_RATIO_THRESHOLD = 0.9`. -/
def VERTICAL_THRESHOLD : ℚ := 9/10

/-- Source constant `LANDSCAPE_ASPECT_RATIO_THRESHOLD = 1.1`. -/
def LANDSCAPE_THRESHOLD : ℚ := 11/10

/-- Source constant `HORIZONTAL_MARGIN = 4`. -/
def HORIZONTAL_MARGIN : ℚ := 4

/-- Source constant `VERTICAL_MARGIN = 4`. -/
def VERTICAL_MARGIN : ℚ := 4

/-- Source constant `DJI_DIPTYCH_MARGIN = 6`. -/
def DJI_DIPTYCH_MARGIN : ℚ := 6

/-- Source table `LAYOUT_WEIGHTS` (0.18 / 0.60 / 0.22; insertion order kept). -/
def LAYOUT_WEIGHTS : List (ℕ × ℚ) := [(1, 18/100), (2, 60/100), (3, 22/100)]

/-! ## String helpers

Embeds the Python idioms `"dji" in os.path.basename(filepath).lower()` and
`filepath.startswith('./')` on explicit character lists. -/

/-- Predicate `strStarts n h`: the char list `n` is an initial segment of `h`. -/
def strStarts : List Char → List Char → Bool
  | [], _ => true
  | _ :: _, [] => false
  | c :: cs, d :: ds => c == d && strStarts cs ds

/-- Predicate `strHasSub n h`: the char list `n` occurs contiguously inside `h`
(Python's `n in h` for strings). -/
def strHasSub (needle : List Char) : List Char → Bool
  | [] => strStarts needle []
  | c :: rest => strStarts needle (c :: rest) || strHasSub needle rest

/-- ASCII lowering of one character (what Python's `str.lower` does on the
ASCII filenames this program manipulates). -/
def lowerCh (c : Char) : Char :=
  if 'A' ≤ c ∧ c ≤ 'Z' then Char.ofNat (c.toNat + 32) else c

/-- Embeds `os.path.basename`: the characters after the last slash. -/
def basenameCh (l : List Char) : List Char :=
  l.foldl (fun acc c => if c = '/' then [] else acc ++ [c]) []

/-- Embeds the check that "dji" occurs in the lower-cased basename. -/
def containsDji (s : String) : Bool :=
  strHasSub "dji".data ((basenameCh s.data).map lowerCh)

/-- Embeds the leading-dot-slash strip of line 727. -/
def stripDotSlash (fp : String) : String :=
  match fp.data with
  | '.' :: '/' :: rest => String.mk rest
  | _ => fp

/-! ## Data model

One element of `section_images_data`: the tuple
`(optimized_image, aspect_ratio, found_path, is_full_width)` with the opaque
image buffer dropped and the path standing for the image's identity. -/

structure ImgData where
  ar : ℚ
  path : String
  is_full_width : Bool
deriving DecidableEq

/-! ## Classifier (lines 441-457 and the partition loop at 758-770) -/

/-- Source function `is_vertical_dji` (lines 441-448). -/
def is_vertical_dji (d : ImgData) : Bool :=
  decide (d.ar < VERTICAL_THRESHOLD) && containsDji d.path

/-- Source function `is_landscape_dji` (lines 450-457). -/
def is_landscape_dji (d : ImgData) : Bool :=
  decide (LANDSCAPE_THRESHOLD ≤ d.ar) && containsDji d.path

/-- The five layout buckets of `process_image_section`. -/
inductive Bucket where
  | verticalDji
  | fullWidth
  | landscapeDji
  | panoramic
  | other
deriving DecidableEq

/-- The `if/elif` chain of the partition loop in `process_image_section`
(lines 758-770), as a bucket-valued function. -/
def classify (d : ImgData) : Bucket :=
  if is_vertical_dji d then Bucket.verticalDji
  else if d.is_full_width then Bucket.fullWidth
  else if is_landscape_dji d then Bucket.landscapeDji
  else if PANORAMIC_THRESHOLD ≤ d.ar then Bucket.panoramic
  else Bucket.other

/-! ## Row builder: `create_image_row` (lines 383-439) -/

/-- A built row: the common height, the margin used between cells, and each
image with its computed display width.  (The ReportLab `Table` with its
interleaved margin columns is projected to this record.) -/
structure RowLayout where
  height : ℚ
  margin : ℚ
  cells : List (ImgData × ℚ)
deriving DecidableEq

/-- Embeds the row's aspect-ratio sum `total_aspect_ratio`. -/
def total_ar (l : List ImgData) : ℚ := (l.map (fun d => d.ar)).sum

/-- Source function `create_image_row(image_data_list, max_width, max_height, custom_margin)`. -/
def create_image_row (l : List ImgData) (mw mh : ℚ) (cm : Option ℚ) :
    Option RowLayout :=
  if l.isEmpty then none
  else
    let margin := cm.getD HORIZONTAL_MARGIN
    let num := l.length
    let total_margin_width := if 1 < num then ((num : ℚ) - 1) * margin else 0
    let available := mw - total_margin_width
    if total_ar l = 0 then none
    else
      let rh0 := available / total_ar l
      let row_height := if rh0 > mh then mh else rh0
      some { height := row_height
             margin := margin
             cells := l.map (fun d => (d, row_height * d.ar)) }

/-! ## Grid builder: `create_dji_vertical_grid` (lines 459-547) -/

/-- A built 2-row grid (the `KeepTogether([top_table, Spacer, bottom_table])`
value, projected to its dimensions): final column width, final row heights,
final vertical margin, the scale factor applied, and each image with its
computed display width. -/
structure GridLayout where
  margin : ℚ
  col_width : ℚ
  top_h : ℚ
  bottom_h : ℚ
  v_margin : ℚ
  scale : ℚ
  top_cells : List (ImgData × ℚ)
  bottom_cells : List (ImgData × ℚ)
deriving DecidableEq

/-- Maximum of a list of rationals; `none` on the empty list, where Python's
`max()` raises `ValueError`. -/
def listMaxQ : List ℚ → Option ℚ
  | [] => none
  | x :: xs => some (xs.foldl (fun a b => max a b) x)

/-- Embeds the row-height computation `max(col_width / ar, for positive ar)` — raises
(`Except.error`) when no aspect ratio in the row is positive. -/
def grid_row_height (col : ℚ) (row : List ImgData) : Except String ℚ :=
  match listMaxQ ((row.filter (fun d => decide (0 < d.ar))).map (fun d => col / d.ar)) with
  | none => Except.error "max() arg is an empty sequence"
  | some h => Except.ok h

/-- Source function `create_dji_vertical_grid(image_data_list, max_width, max_height,
custom_margin)`.  `Except.ok none` is Python's `return None` (wrong image
count); `Except.error` is an uncaught exception (`ValueError` from `max`, or
`ZeroDivisionError` when the unconstrained total height is 0 yet exceeds
`max_height`). -/
def create_dji_vertical_grid (l : List ImgData) (mw mh : ℚ) (cm : Option ℚ) :
    Except String (Option GridLayout) :=
  let num := l.length
  if ¬(3 ≤ num ∧ num ≤ 4) then Except.ok none
  else
    let margin := cm.getD HORIZONTAL_MARGIN
    let initial_col_width := (mw - margin) / 2
    let top_row := l.take 2
    let bottom_row := l.drop 2
    match (if top_row.isEmpty then Except.ok 0 else grid_row_height initial_col_width top_row) with
    | Except.error e => Except.error e
    | Except.ok top_h =>
      match (if bottom_row.isEmpty then Except.ok 0
             else grid_row_height initial_col_width bottom_row) with
      | Except.error e => Except.error e
      | Except.ok bottom_h =>
        let total0 := top_h + bottom_h + (if bottom_row.isEmpty then 0 else VERTICAL_MARGIN)
        if total0 > mh ∧ total0 = 0 then Except.error "ZeroDivisionError"
        else
          let scale := if total0 > mh then mh / total0 else 1
          Except.ok (some
            { margin := margin
              col_width := initial_col_width * scale
              top_h := top_h * scale
              bottom_h := bottom_h * scale
              v_margin := VERTICAL_MARGIN * scale
              scale := scale
              top_cells := top_row.map (fun d => (d, top_h * scale * d.ar))
              bottom_cells := bottom_row.map (fun d => (d, bottom_h * scale * d.ar)) })

/-! ## Flowables

The elements the engine appends to `section_layouts` and `story`.  Python
lists can hold `None` (the code appends `create_image_row(...)` results
unguarded in several places), so the element type of those lists is
`Option Flowable`. -/

/-- A ReportLab flowable: a row `Table`, a `KeepTogether` grid, a `Spacer`,
or a `Paragraph` (used for the missing-image placeholder). -/
inductive Flowable where
  | row (r : RowLayout)
  | grid (g : GridLayout)
  | spacer (w h : ℚ)
  | text (s : String)
deriving DecidableEq

/-- An element of the `story` list. -/
abbrev StoryElem := Option Flowable

/-! ## Weighted row packer: `create_layouts_for_remaining_images`
(lines 670-700) -/

/-- Model of the seeded pseudo-random generator: from a state, the candidate
row sizes and their weights, produce a drawn index (interpreted modulo the
number of candidates) and the successor state.  Python's
`random.choices(population, weights)` deterministically returns an element
of `population` once the generator has been seeded; drawing an index into
the candidate list captures that contract for every deterministic
generator. -/
def PickFn (σ : Type) : Type := σ → List ℕ → List ℚ → ℕ × σ

/-- Embeds `possible_choices`: the weight-table keys not exceeding the remaining count. -/
def possible_choices (remaining : ℕ) : List ℕ :=
  (LAYOUT_WEIGHTS.map Prod.fst).filter (fun s => s ≤ remaining)

/-- Embeds `weights`: the weight-table entries of the candidate sizes. -/
def weights_for (cands : List ℕ) : List ℚ :=
  cands.map (fun s => (LAYOUT_WEIGHTS.lookup s).getD 0)

/-- Embeds `target_row_size = random.choices(possible_choices, weights,
k=1)[0]` under the index-drawing generator model: the drawn row size (an
element of `cands`) and the successor generator state. -/
def drawTarget {σ : Type} (pick : PickFn σ) (s : σ) (cands : List ℕ) : ℕ × σ :=
  (cands.getD ((pick s cands (weights_for cands)).1 % cands.length) 1,
   (pick s cands (weights_for cands)).2)

/-- The `while i < len(image_data_list)` loop of
`create_layouts_for_remaining_images`, returning the consecutive row groups,
the final generator state, and whether the `break` branch (no candidate row
size) was taken.  A single remaining image forces row size 1; otherwise a
size is drawn from `possible_choices` by the generator. -/
def packLoop {σ : Type} (pick : PickFn σ) : σ → List ImgData →
    List (List ImgData) × σ × Bool
  | s, [] => ([], s, false)
  | s, x :: xs =>
    if xs.isEmpty then
      ([(x :: xs).take 1], s, false)
    else
      let cands := possible_choices (x :: xs).length
      if cands.isEmpty then ([], s, true)
      else
        let ts := drawTarget pick s cands
        let row := (x :: xs).take ts.1
        let rest := (x :: xs).drop ts.1
        let res := packLoop pick ts.2 rest
        (if row.isEmpty then res.1 else row :: res.1, res.2)
termination_by _ l => l.length
decreasing_by
  simp only [drawTarget, List.length_drop, List.length_cons]
  have key : ∀ n i : ℕ, 1 ≤ (possible_choices n).getD i 1 := by
    intro n i
    rcases h : (possible_choices n)[i]? with _ | v
    · simp [List.getD, h]
    · have hv : v ∈ possible_choices n := List.getElem?_mem h
      have hm : v ∈ LAYOUT_WEIGHTS.map Prod.fst := (List.mem_filter.mp hv).1
      have hval : v = 1 ∨ v = 2 ∨ v = 3 := by simpa [LAYOUT_WEIGHTS] using hm
      have hgd : (possible_choices n).getD i 1 = v := by simp [List.getD, h]
      rw [hgd]
      omega
  exact Nat.sub_lt (Nat.succ_pos _) (key _ _)

/-- Source function `create_layouts_for_remaining_images(image_data_list, max_width,
max_height, optimization_stats)`: each drawn group becomes a
`create_image_row` layout (appended even when it is `None`, as in the
source). -/
def create_layouts_for_remaining_images {σ : Type} (pick : PickFn σ) (s : σ)
    (l : List ImgData) (mw mh : ℚ) : List (Option Flowable) × σ × Bool :=
  if l.isEmpty then ([], s, false)
  else
    let res := packLoop pick s l
    (res.1.map (fun g => (create_image_row g mw mh none).map Flowable.row), res.2)

/-! ## Vertical-DJI grouping inside `process_image_section` (lines 785-810) -/

/-- The successive slices `dji_verticals[i:i+4]` of the
`for i in range(0, len(dji_verticals), 4)` loop. -/
def chunks4 : List ImgData → List (List ImgData)
  | [] => []
  | x :: xs => (x :: xs).take 4 :: chunks4 ((x :: xs).drop 4)
termination_by l => l.length
decreasing_by
  simp only [List.length_drop, List.length_cons]
  omega

/-- The priority-1 loop of `process_image_section`: chunks of exactly 2 go
through `create_image_row` with `DJI_DIPTYCH_MARGIN`; chunks of 3 or 4 go
through `create_dji_vertical_grid` (also with the diptych margin); a
leftover chunk of 1 goes to `dji_leftovers`.  An uncaught exception from the
grid builder propagates. -/
def processDjiVerticals (mw mh : ℚ) : List ImgData →
    Except String (List Flowable × List ImgData)
  | [] => Except.ok ([], [])
  | x :: xs =>
    let chunk := (x :: xs).take 4
    let rest := (x :: xs).drop 4
    if chunk.length = 2 then
      match create_image_row chunk mw mh (some DJI_DIPTYCH_MARGIN) with
      | some row =>
        match processDjiVerticals mw mh rest with
        | Except.error e => Except.error e
        | Except.ok (fs, lo) => Except.ok (Flowable.row row :: fs, lo)
      | none => processDjiVerticals mw mh rest
    else if 3 ≤ chunk.length then
      match create_dji_vertical_grid chunk mw mh (some DJI_DIPTYCH_MARGIN) with
      | Except.error e => Except.error e
      | Except.ok none => processDjiVerticals mw mh rest
      | Except.ok (some g) =>
        match processDjiVerticals mw mh rest with
        | Except.error e => Except.error e
        | Except.ok (fs, lo) => Except.ok (Flowable.grid g :: fs, lo)
    else
      match processDjiVerticals mw mh rest with
      | Except.error e => Except.error e
      | Except.ok (fs, lo) => Except.ok (fs, chunk ++ lo)
termination_by l => l.length
decreasing_by
  all_goals simp only [List.length_drop, List.length_cons]
  all_goals omega

/-- The layout unit one vertical-DJI chunk contributes (the body of the
priority-1 loop, per chunk): a diptych row for exactly 2 images, a grid for
3-4, nothing for a leftover single image or when the builder declines. -/
def djiChunkLayout (mw mh : ℚ) (c : List ImgData) : Option Flowable :=
  if c.length = 2 then
    (create_image_row c mw mh (some DJI_DIPTYCH_MARGIN)).map Flowable.row
  else if 3 ≤ c.length then
    match create_dji_vertical_grid c mw mh (some DJI_DIPTYCH_MARGIN) with
    | Except.ok (some g) => some (Flowable.grid g)
    | _ => none
  else none

/-! ## Section partition and assembly (`process_image_section`, lines 747-846) -/

/-- The partition loop of `process_image_section` step 2, returning
`(full_width_images, dji_verticals, dji_landscapes, panoramics, others)` in
original relative order. -/
def partitionSection : List ImgData →
    List ImgData × List ImgData × List ImgData × List ImgData × List ImgData
  | [] => ([], [], [], [], [])
  | d :: rest =>
    let p := partitionSection rest
    if is_vertical_dji d then (p.1, d :: p.2.1, p.2.2.1, p.2.2.2.1, p.2.2.2.2)
    else if d.is_full_width then (d :: p.1, p.2.1, p.2.2.1, p.2.2.2.1, p.2.2.2.2)
    else if is_landscape_dji d then (p.1, p.2.1, d :: p.2.2.1, p.2.2.2.1, p.2.2.2.2)
    else if PANORAMIC_THRESHOLD ≤ d.ar then (p.1, p.2.1, p.2.2.1, d :: p.2.2.2.1, p.2.2.2.2)
    else (p.1, p.2.1, p.2.2.1, p.2.2.2.1, d :: p.2.2.2.2)

/-- Step 3 of `process_image_section`: assemble `section_layouts` in priority
order — vertical-DJI rows/grids, then each full-width image as a
single-image row, then panoramics, then landscape DJIs, then the packed
rows of the remaining images.  Returns the layouts and the final generator
state. -/
def process_section_layouts {σ : Type} (pick : PickFn σ) (s : σ)
    (data : List ImgData) (mw mh : ℚ) :
    Except String (List (Option Flowable) × σ) :=
  let parts := partitionSection data
  let fw := parts.1
  let dv := parts.2.1
  let dl := parts.2.2.1
  let pan := parts.2.2.2.1
  let ot := parts.2.2.2.2
  match (if dv.isEmpty then Except.ok ([], []) else processDjiVerticals mw mh dv) with
  | Except.error e => Except.error e
  | Except.ok (djiFlows, dji_leftovers) =>
    let ot2 := if dji_leftovers.isEmpty then ot else ot ++ dji_leftovers
    let sl1 : List (Option Flowable) := djiFlows.map some
    let sl2 := if fw.isEmpty then sl1 else
      sl1 ++ fw.map (fun d => (create_image_row [d] mw mh none).map Flowable.row)
    let sl3 := if pan.isEmpty then sl2 else
      sl2 ++ pan.map (fun d => (create_image_row [d] mw mh none).map Flowable.row)
    let sl4 := if dl.isEmpty then sl3 else
      sl3 ++ dl.map (fun d => (create_image_row [d] mw mh none).map Flowable.row)
    if ot2.isEmpty then Except.ok (sl4, s)
    else
      let res := create_layouts_for_remaining_images pick s ot2 mw mh
      Except.ok (sl4 ++ res.1, res.2.1)

/-- Step 4 of `process_image_section`:
`for layout in section_layouts: story.append(layout); story.append(Spacer(1, 10))`. -/
def appendLayoutsToStory (story : List StoryElem) (sl : List (Option Flowable)) :
    List StoryElem :=
  sl.foldl (fun st u => st ++ [u, some (Flowable.spacer 1 10)]) story

/-! ## Step 1 of `process_image_section` (lines 714-746)

The external collaborators (`find_image_file`, `optimize_lightroom_image`,
PIL decoding) are modelled as fields of the input line: `found` is the
result of `find_image_file`, `decode` the pixel dimensions PIL reports
(`none` when the file cannot be decoded), `procError` whether the body of
the per-image `try` raises, and `optimizedToBuffer` whether optimization
produced a `BytesIO` buffer (which only selects which statistics counter is
incremented). -/

structure ImgLine where
  filepath : String
  is_full_width : Bool
  found : Option String
  decode : Option (ℕ × ℕ)
  procError : Bool
  optimizedToBuffer : Bool
deriving DecidableEq

/-- Source function `get_image_aspect_ratio` (lines 361-381): width/height, or the default
1.5 when the image cannot be decoded (all exceptions are swallowed there,
including a zero height). -/
def get_image_ar (decode : Option (ℕ × ℕ)) : ℚ :=
  match decode with
  | some (w, h) => if h = 0 then 3/2 else (w : ℚ) / h
  | none => 3/2

/-- The per-image validation loop (step 1): returns the `section_images_data`
entries, the story elements appended (the `[Image not found: ...]`
placeholder paragraphs), the `missing_files` entries appended, and the
`optimized_count` / `unchanged_count` increments. -/
def preprocessSectionImages : List ImgLine →
    List ImgData × List StoryElem × List String × ℕ × ℕ
  | [] => ([], [], [], 0, 0)
  | ln :: rest =>
    let fp := stripDotSlash ln.filepath
    let p := preprocessSectionImages rest
    match ln.found with
    | some foundPath =>
      if ln.procError then (p.1, p.2.1, fp :: p.2.2.1, p.2.2.2.1, p.2.2.2.2)
      else
        let d : ImgData := ⟨get_image_ar ln.decode, foundPath, ln.is_full_width⟩
        if ln.optimizedToBuffer then (d :: p.1, p.2.1, p.2.2.1, p.2.2.2.1 + 1, p.2.2.2.2)
        else (d :: p.1, p.2.1, p.2.2.1, p.2.2.2.1, p.2.2.2.2 + 1)
    | none =>
      (p.1, some (Flowable.text ("[Image not found: " ++ fp ++ "]")) :: p.2.1,
       fp :: p.2.2.1, p.2.2.2.1, p.2.2.2.2)

/-- Source function `process_image_section(image_lines, styles, story, missing_files,
optimization_stats, max_width, max_height)`(lines 702-846), with the story
and missing-files lists threaded explicitly and the two statistics counters
returned last. -/
def process_image_section {σ : Type} (pick : PickFn σ) (s : σ)
    (lines : List ImgLine) (mw mh : ℚ) (story : List StoryElem)
    (missing : List String) :
    Except String (List StoryElem × List String × σ × ℕ × ℕ) :=
  let pre := preprocessSectionImages lines
  let story1 := story ++ pre.2.1
  let missing1 := missing ++ pre.2.2.1
  if pre.1.isEmpty then Except.ok (story1, missing1, s, pre.2.2.2.1, pre.2.2.2.2)
  else
    match process_section_layouts pick s pre.1 mw mh with
    | Except.error e => Except.error e
    | Except.ok (sl, s1) =>
      Except.ok (appendLayoutsToStory story1 sl, missing1, s1, pre.2.2.2.1, pre.2.2.2.2)

/-! ## Sample data used by witnesses -/

/-- A deterministic generator that always draws index 0 and keeps its state. -/
def constPick : PickFn ℕ := fun s _ _ => (0, s)

def sampleOther : ImgData := ⟨2, "a.jpg", false⟩

def djiHalf (name : String) : ImgData := ⟨1/2, name, false⟩

def overflowA : ImgData := ⟨1/2, "dji_0001.jpg", false⟩

def overflowB : ImgData := ⟨4/5, "dji_0002.jpg", false⟩

def overflowC : ImgData := ⟨1/2, "dji_0003.jpg", false⟩

/-- An initially empty story list, used by witnesses. -/
def emptyStory : List StoryElem := []

end Portfolio

namespace Portfolio

/-! ## Helper lemmas -/

theorem foldl_max_init_le (x : ℚ) (xs : List ℚ) :
    x ≤ xs.foldl (fun a b => max a b) x := by
  induction xs generalizing x with
  | nil => exact le_refl x
  | cons y ys ih => exact le_trans (le_max_left x y) (ih (max x y))

/-- On a non-empty row of positive aspect ratios, `grid_row_height` succeeds,
and its value is nonnegative when the column width is. -/
theorem grid_row_height_pos_ok (col : ℚ) (row : List ImgData)
    (hne : row ≠ []) (hpos : ∀ d ∈ row, 0 < d.ar) :
    ∃ h, grid_row_height col row = Except.ok h ∧ (0 ≤ col → 0 ≤ h) := by
  have hfilter : row.filter (fun d => decide (0 < d.ar)) = row :=
    List.filter_eq_self.mpr (fun d hd => by simpa using hpos d hd)
  unfold grid_row_height
  rw [hfilter]
  cases row with
  | nil => exact absurd rfl hne
  | cons d ds =>
    simp only [List.map_cons, listMaxQ]
    refine ⟨_, rfl, fun hcol => ?_⟩
    have h0 : 0 ≤ col / d.ar :=
      div_nonneg hcol (le_of_lt (hpos d (List.mem_cons_self d ds)))
    exact le_trans h0 (foldl_max_init_le _ _)

/-- Whatever index the generator produces, the drawn row size is at least 1
(`possible_choices` only ever contains 1, 2, 3; the `getD` default is 1). -/
theorem one_le_pc_getD (n i : ℕ) : 1 ≤ (possible_choices n).getD i 1 := by
  rcases h : (possible_choices n)[i]? with _ | v
  · simp [List.getD, h]
  · have hv : v ∈ possible_choices n := List.getElem?_mem h
    have hm : v ∈ LAYOUT_WEIGHTS.map Prod.fst := (List.mem_filter.mp hv).1
    have hval : v = 1 ∨ v = 2 ∨ v = 3 := by simpa [LAYOUT_WEIGHTS] using hm
    have hgd : (possible_choices n).getD i 1 = v := by simp [List.getD, h]
    rw [hgd]
    omega

/-- Row size 1 qualifies whenever at least one image remains. -/
theorem one_mem_pc (n : ℕ) : 1 ∈ possible_choices (n + 1) := by
  rw [possible_choices]
  rw [List.mem_filter]
  refine ⟨by simp [LAYOUT_WEIGHTS], by simp⟩

/-- The drawn row size is always at least 1. -/
theorem one_le_drawTarget {σ : Type} (pick : PickFn σ) (s : σ) (n : ℕ) :
    1 ≤ (drawTarget pick s (possible_choices n)).1 :=
  one_le_pc_getD n _

/-- One unfolding of the packer loop in the drawing branch (at least two
images remain and the candidate list is non-empty). -/
theorem packLoop_cons {σ : Type} (pick : PickFn σ) (s : σ) (x : ImgData)
    (xs : List ImgData) (hx : xs.isEmpty = false)
    (hc : (possible_choices (x :: xs).length).isEmpty = false) :
    packLoop pick s (x :: xs) =
      ((x :: xs).take (drawTarget pick s (possible_choices (x :: xs).length)).1 ::
         (packLoop pick (drawTarget pick s (possible_choices (x :: xs).length)).2
           ((x :: xs).drop (drawTarget pick s (possible_choices (x :: xs).length)).1)).1,
       (packLoop pick (drawTarget pick s (possible_choices (x :: xs).length)).2
         ((x :: xs).drop (drawTarget pick s (possible_choices (x :: xs).length)).1)).2) := by
  have hrow : ((x :: xs).take
      (drawTarget pick s (possible_choices (x :: xs).length)).1).isEmpty = false := by
    rw [List.isEmpty_eq_false, Ne, List.take_eq_nil_iff]
    push_neg
    refine ⟨?_, by simp⟩
    have h1 := one_le_drawTarget pick s (x :: xs).length
    omega
  simp only [packLoop, hx, Bool.false_eq_true, if_false, hc, hrow]

/-! ## Claim theorems -/

/-- C3: Classification is a total, deterministic function of
(aspect_ratio, is_full_width, filename) assigning every image to exactly one
bucket by the priority chain: vertical-dji iff `ar < 0.9` and the basename
contains "dji" case-insensitively; otherwise full-width iff the flag is set;
otherwise landscape-dji iff `ar ≥ 1.1` and the filename contains "dji";
otherwise panoramic iff `ar ≥ 2.0`; otherwise other. -/
theorem classify_priority_chain (d : ImgData) :
    (classify d = Bucket.verticalDji ↔
      d.ar < VERTICAL_THRESHOLD ∧ containsDji d.path = true) ∧
    (classify d = Bucket.fullWidth ↔
      ¬(d.ar < VERTICAL_THRESHOLD ∧ containsDji d.path = true) ∧
      d.is_full_width = true) ∧
    (classify d = Bucket.landscapeDji ↔
      ¬(d.ar < VERTICAL_THRESHOLD ∧ containsDji d.path = true) ∧
      d.is_full_width = false ∧
      (LANDSCAPE_THRESHOLD ≤ d.ar ∧ containsDji d.path = true)) ∧
    (classify d = Bucket.panoramic ↔
      ¬(d.ar < VERTICAL_THRESHOLD ∧ containsDji d.path = true) ∧
      d.is_full_width = false ∧
      ¬(LANDSCAPE_THRESHOLD ≤ d.ar ∧ containsDji d.path = true) ∧
      PANORAMIC_THRESHOLD ≤ d.ar) ∧
    (classify d = Bucket.other ↔
      ¬(d.ar < VERTICAL_THRESHOLD ∧ containsDji d.path = true) ∧
      d.is_full_width = false ∧
      ¬(LANDSCAPE_THRESHOLD ≤ d.ar ∧ containsDji d.path = true) ∧
      ¬PANORAMIC_THRESHOLD ≤ d.ar) := by
  simp only [classify, is_vertical_dji, is_landscape_dji, Bool.and_eq_true,
    decide_eq_true_eq]
  split_ifs with h1 h2 h3 h4 <;> simp_all

/-- C1: for a non-empty image list whose aspect-ratio sum `S` is nonzero,
`create_image_row` lays the images out in input order at the common height
`h = min((max_width − margin·(n−1)) / S, max_height)` with the i-th display
width `h · ar_i`, so the height never exceeds `max_height` and each width is
the height times the input aspect ratio; for an empty list or `S = 0` it
returns no layout. -/
theorem create_image_row_spec (mw mh : ℚ) (cm : Option ℚ) :
    (∀ l : List ImgData, l ≠ [] → total_ar l ≠ 0 →
      create_image_row l mw mh cm =
        some { height := min ((mw - ((l.length : ℚ) - 1) * cm.getD HORIZONTAL_MARGIN)
                                / total_ar l) mh
               margin := cm.getD HORIZONTAL_MARGIN
               cells := l.map (fun d =>
                 (d, min ((mw - ((l.length : ℚ) - 1) * cm.getD HORIZONTAL_MARGIN)
                            / total_ar l) mh * d.ar)) } ∧
      min ((mw - ((l.length : ℚ) - 1) * cm.getD HORIZONTAL_MARGIN) / total_ar l) mh ≤ mh) ∧
    (∀ l : List ImgData, l = [] ∨ total_ar l = 0 →
      create_image_row l mw mh cm = none) := by
  constructor
  · intro l hne hS
    have hlen : 1 ≤ l.length := List.length_pos.mpr hne
    have hmargin :
        (if 1 < l.length then ((l.length : ℚ) - 1) * cm.getD HORIZONTAL_MARGIN else 0) =
          ((l.length : ℚ) - 1) * cm.getD HORIZONTAL_MARGIN := by
      rcases Nat.lt_or_ge 1 l.length with h | h
      · rw [if_pos h]
      · have h1 : l.length = 1 := le_antisymm h hlen
        rw [if_neg (by omega)]
        simp [h1]
    have hempty : l.isEmpty = false := by
      cases l with
      | nil => exact absurd rfl hne
      | cons a as => rfl
    unfold create_image_row
    rw [hempty]
    simp only [Bool.false_eq_true, if_false, hmargin, if_neg hS]
    set r := (mw - ((l.length : ℚ) - 1) * cm.getD HORIZONTAL_MARGIN) / total_ar l with hr
    constructor
    · rcases le_or_lt r mh with h | h
      · rw [if_neg (not_lt.mpr h), min_eq_left h]
      · rw [if_pos h, min_eq_right h.le]
    · exact min_le_right _ _
  · intro l hl
    rcases hl with h | h
    · subst h; rfl
    · unfold create_image_row
      cases l with
      | nil => rfl
      | cons a as => simp [h]

/-- Witness for C1 at the one-image list `[⟨2, "a.jpg", false⟩]` with
`max_width = 100`, `max_height = 50` and the default margin, and at the empty
list. -/
theorem create_image_row_spec_witness :
    (create_image_row [sampleOther] 100 50 none =
      some { height := min ((100 - ((([sampleOther] : List ImgData).length : ℚ) - 1)
                              * (none : Option ℚ).getD HORIZONTAL_MARGIN)
                              / total_ar [sampleOther]) 50
             margin := (none : Option ℚ).getD HORIZONTAL_MARGIN
             cells := [sampleOther].map (fun d =>
               (d, min ((100 - ((([sampleOther] : List ImgData).length : ℚ) - 1)
                          * (none : Option ℚ).getD HORIZONTAL_MARGIN)
                          / total_ar [sampleOther]) 50 * d.ar)) } ∧
      min ((100 - ((([sampleOther] : List ImgData).length : ℚ) - 1)
             * (none : Option ℚ).getD HORIZONTAL_MARGIN) / total_ar [sampleOther]) 50 ≤ 50) ∧
    create_image_row [] 100 50 none = none :=
  ⟨(create_image_row_spec 100 50 none).1 [sampleOther]
      (by simp) (by norm_num [total_ar, sampleOther]),
   (create_image_row_spec 100 50 none).2 [] (Or.inl rfl)⟩

/-- The successful-grid half of the C2 specification, as a reusable lemma. -/
theorem create_dji_grid_spec_aux (mw mh : ℚ) (cm : Option ℚ) :
    ∀ l : List ImgData, 3 ≤ l.length → l.length ≤ 4 →
      (∀ d ∈ l, 0 < d.ar) → cm.getD HORIZONTAL_MARGIN ≤ mw →
      ∃ th bh g,
        grid_row_height ((mw - cm.getD HORIZONTAL_MARGIN) / 2) (l.take 2) = Except.ok th ∧
        grid_row_height ((mw - cm.getD HORIZONTAL_MARGIN) / 2) (l.drop 2) = Except.ok bh ∧
        create_dji_vertical_grid l mw mh cm = Except.ok (some g) ∧
        g.top_h + g.bottom_h + g.v_margin ≤ mh ∧
        (th + bh + VERTICAL_MARGIN ≤ mh →
          g.scale = 1 ∧ g.col_width = (mw - cm.getD HORIZONTAL_MARGIN) / 2 ∧
          g.top_h = th ∧ g.bottom_h = bh ∧ g.v_margin = VERTICAL_MARGIN) ∧
        g.top_cells = (l.take 2).map (fun d => (d, g.top_h * d.ar)) ∧
        g.bottom_cells = (l.drop 2).map (fun d => (d, g.bottom_h * d.ar)) := by
  intro l h3 h4 hpos hmarg
  have htopne : l.take 2 ≠ [] := by
    have h : (l.take 2).length = min 2 l.length := by rw [List.length_take]
    intro hemp
    rw [hemp] at h
    simp at h
    omega
  have hbotne : l.drop 2 ≠ [] := by
    have h : (l.drop 2).length = l.length - 2 := by rw [List.length_drop]
    intro hemp
    rw [hemp] at h
    simp at h
    omega
  have hcol : 0 ≤ (mw - cm.getD HORIZONTAL_MARGIN) / 2 :=
    div_nonneg (by linarith) (by norm_num)
  obtain ⟨th, hth, hthn⟩ := grid_row_height_pos_ok _ (l.take 2) htopne
    (fun d hd => hpos d (List.mem_of_mem_take hd))
  obtain ⟨bh, hbh, hbhn⟩ := grid_row_height_pos_ok _ (l.drop 2) hbotne
    (fun d hd => hpos d (List.mem_of_mem_drop hd))
  have h0th := hthn hcol
  have h0bh := hbhn hcol
  have htopE : (l.take 2).isEmpty = false := by
    simp [List.isEmpty_eq_false, htopne]
  have hbotE : (l.drop 2).isEmpty = false := by
    simp [List.isEmpty_eq_false, hbotne]
  have htot : (0 : ℚ) < th + bh + VERTICAL_MARGIN := by
    unfold VERTICAL_MARGIN
    linarith
  refine ⟨th, bh, ?_⟩
  unfold create_dji_vertical_grid
  rw [if_neg (by push_neg; omega)]
  simp only [htopE, hbotE, Bool.false_eq_true, if_false, hth, hbh]
  rw [if_neg (by rintro ⟨-, h0⟩; exact absurd h0 (ne_of_gt htot))]
  rcases le_or_lt (th + bh + VERTICAL_MARGIN) mh with hfit | hover
  · rw [if_neg (not_lt.mpr hfit)]
    refine ⟨_, trivial, trivial, rfl, ?_, ?_, rfl, rfl⟩
    · simp only [mul_one]
      exact hfit
    · intro _
      refine ⟨rfl, by simp, by simp, by simp, by simp⟩
  · rw [if_pos hover]
    refine ⟨_, trivial, trivial, rfl, ?_, ?_, rfl, rfl⟩
    · have : th * (mh / (th + bh + VERTICAL_MARGIN)) +
          bh * (mh / (th + bh + VERTICAL_MARGIN)) +
          VERTICAL_MARGIN * (mh / (th + bh + VERTICAL_MARGIN)) =
          (th + bh + VERTICAL_MARGIN) * (mh / (th + bh + VERTICAL_MARGIN)) := by ring
      rw [this, mul_div_cancel₀ mh (ne_of_gt htot)]
    · intro hfit
      exact absurd hover (not_lt.mpr hfit)

/-- A 3- or 4-image group of positive aspect ratios with an admissible margin
always yields a grid. -/
theorem create_dji_grid_ok (l : List ImgData) (mw mh : ℚ) (cm : Option ℚ)
    (h3 : 3 ≤ l.length) (h4 : l.length ≤ 4)
    (hpos : ∀ d ∈ l, 0 < d.ar) (hm : cm.getD HORIZONTAL_MARGIN ≤ mw) :
    ∃ g, create_dji_vertical_grid l mw mh cm = Except.ok (some g) := by
  obtain ⟨th, bh, g, -, -, hg, -, -, -, -⟩ :=
    create_dji_grid_spec_aux mw mh cm l h3 h4 hpos hm
  exact ⟨g, hg⟩

/-- C2: `create_dji_vertical_grid` produces a layout only when given exactly
3 or 4 images (any other count yields no layout); for every such input with
positive aspect ratios (and an admissible margin, `margin ≤ max_width`), the
grid's total height (top row + bottom row + vertical margin) never exceeds
`max_height` after scaling, the dimensions are left unscaled when the
unconstrained total already fits within `max_height`, and every image's
display width equals its row height times its own aspect ratio. -/
theorem create_dji_vertical_grid_spec (mw mh : ℚ) (cm : Option ℚ) :
    (∀ l : List ImgData, ¬(3 ≤ l.length ∧ l.length ≤ 4) →
      create_dji_vertical_grid l mw mh cm = Except.ok none) ∧
    (∀ l : List ImgData, 3 ≤ l.length → l.length ≤ 4 →
      (∀ d ∈ l, 0 < d.ar) → cm.getD HORIZONTAL_MARGIN ≤ mw →
      ∃ th bh g,
        grid_row_height ((mw - cm.getD HORIZONTAL_MARGIN) / 2) (l.take 2) = Except.ok th ∧
        grid_row_height ((mw - cm.getD HORIZONTAL_MARGIN) / 2) (l.drop 2) = Except.ok bh ∧
        create_dji_vertical_grid l mw mh cm = Except.ok (some g) ∧
        g.top_h + g.bottom_h + g.v_margin ≤ mh ∧
        (th + bh + VERTICAL_MARGIN ≤ mh →
          g.scale = 1 ∧ g.col_width = (mw - cm.getD HORIZONTAL_MARGIN) / 2 ∧
          g.top_h = th ∧ g.bottom_h = bh ∧ g.v_margin = VERTICAL_MARGIN) ∧
        g.top_cells = (l.take 2).map (fun d => (d, g.top_h * d.ar)) ∧
        g.bottom_cells = (l.drop 2).map (fun d => (d, g.bottom_h * d.ar))) := by
  constructor
  · intro l hno
    unfold create_dji_vertical_grid
    rw [if_pos hno]
  · exact create_dji_grid_spec_aux mw mh cm

/-- Witness for C2: three positive vertical-DJI aspect ratios, at
`max_width = 100`, `max_height = 10000`, diptych margin 6, and the
wrong-count clause at the empty list. -/
theorem create_dji_vertical_grid_spec_witness :
    create_dji_vertical_grid [] 100 10000 (some 6) = Except.ok none ∧
    (∃ th bh g,
      grid_row_height ((100 - (some (6:ℚ)).getD HORIZONTAL_MARGIN) / 2)
        ([djiHalf "dji_1", djiHalf "dji_2", djiHalf "dji_3"].take 2) = Except.ok th ∧
      grid_row_height ((100 - (some (6:ℚ)).getD HORIZONTAL_MARGIN) / 2)
        ([djiHalf "dji_1", djiHalf "dji_2", djiHalf "dji_3"].drop 2) = Except.ok bh ∧
      create_dji_vertical_grid [djiHalf "dji_1", djiHalf "dji_2", djiHalf "dji_3"]
        100 10000 (some 6) = Except.ok (some g) ∧
      g.top_h + g.bottom_h + g.v_margin ≤ 10000 ∧
      (th + bh + VERTICAL_MARGIN ≤ 10000 →
        g.scale = 1 ∧ g.col_width = (100 - (some (6:ℚ)).getD HORIZONTAL_MARGIN) / 2 ∧
        g.top_h = th ∧ g.bottom_h = bh ∧ g.v_margin = VERTICAL_MARGIN) ∧
      g.top_cells = ([djiHalf "dji_1", djiHalf "dji_2", djiHalf "dji_3"].take 2).map
        (fun d => (d, g.top_h * d.ar)) ∧
      g.bottom_cells = ([djiHalf "dji_1", djiHalf "dji_2", djiHalf "dji_3"].drop 2).map
        (fun d => (d, g.bottom_h * d.ar))) :=
  ⟨(create_dji_vertical_grid_spec 100 10000 (some 6)).1 [] (by simp),
   (create_dji_vertical_grid_spec 100 10000 (some 6)).2
      [djiHalf "dji_1", djiHalf "dji_2", djiHalf "dji_3"]
      (by simp) (by simp)
      (by intro d hd; fin_cases hd <;> norm_num [djiHalf])
      (by norm_num)⟩

/-- C8 counterexample: a 3-image group whose aspect ratios are all zero makes
`create_dji_vertical_grid` raise (Python `ValueError` from `max()` on an
empty sequence) instead of being skipped non-fatally, and a group containing
a negative aspect ratio whose sum is nonzero still gets a row layout from
`create_image_row` instead of being skipped. -/
theorem degenerate_skip_counterexample :
    create_dji_vertical_grid
        [⟨0, "dji_a.jpg", false⟩, ⟨0, "dji_b.jpg", false⟩, ⟨0, "dji_c.jpg", false⟩]
        100 100 none = Except.error "max() arg is an empty sequence" ∧
    create_image_row [⟨2, "x.jpg", false⟩, ⟨-1, "y.jpg", false⟩] 100 100 none ≠ none := by
  constructor
  · norm_num [create_dji_vertical_grid, grid_row_height, listMaxQ]
  · have h : total_ar [⟨2, "x.jpg", false⟩, ⟨-1, "y.jpg", false⟩] ≠ 0 := by
      norm_num [total_ar]
    simp [create_image_row, h]

/-- C8 amended: `create_image_row` skips a group (returns no layout, without
raising) exactly when the group is empty or its aspect-ratio sum is zero —
groups merely containing zero/negative ratios are still laid out when the sum
is nonzero; and `create_dji_vertical_grid` on a 3- or 4-image group whose
top pair has no positive aspect ratio raises a `ValueError` rather than
skipping. -/
theorem degenerate_ar_amended :
    (∀ (l : List ImgData) (mw mh : ℚ) (cm : Option ℚ),
      create_image_row l mw mh cm = none ↔ l = [] ∨ total_ar l = 0) ∧
    (∀ (l : List ImgData) (mw mh : ℚ) (cm : Option ℚ),
      3 ≤ l.length → l.length ≤ 4 → (∀ d ∈ l.take 2, d.ar ≤ 0) →
      create_dji_vertical_grid l mw mh cm =
        Except.error "max() arg is an empty sequence") := by
  constructor
  · intro l mw mh cm
    cases l with
    | nil => simp [create_image_row]
    | cons a as =>
      by_cases h : total_ar (a :: as) = 0
      · simp [create_image_row, h]
      · simp [create_image_row, h]
  · intro l mw mh cm h3 h4 hnp
    have hfilter : (l.take 2).filter (fun d => decide (0 < d.ar)) = [] := by
      rw [List.filter_eq_nil_iff]
      intro d hd
      simpa using not_lt.mpr (hnp d hd)
    have htopE : (l.take 2).isEmpty = false := by
      have h : (l.take 2).length = min 2 l.length := by rw [List.length_take]
      rw [List.isEmpty_eq_false]
      intro hemp
      rw [hemp] at h
      simp at h
      omega
    unfold create_dji_vertical_grid
    rw [if_neg (by push_neg; omega)]
    simp only [htopE, Bool.false_eq_true, if_false, grid_row_height, hfilter,
      List.map_nil, listMaxQ]

/-- Witness for the amended C8 at concrete inputs: the empty list for the
`create_image_row` clause and a top pair of nonpositive ratios for the grid
clause. -/
theorem degenerate_ar_amended_witness :
    (create_image_row [] 5 5 none = none ↔ ([] : List ImgData) = [] ∨ total_ar [] = 0) ∧
    create_dji_vertical_grid [⟨0, "a", false⟩, ⟨0, "b", false⟩, ⟨-1, "c", false⟩] 5 5 none
      = Except.error "max() arg is an empty sequence" :=
  ⟨degenerate_ar_amended.1 [] 5 5 none,
   degenerate_ar_amended.2 [⟨0, "a", false⟩, ⟨0, "b", false⟩, ⟨-1, "c", false⟩] 5 5 none
     (by simp) (by simp)
     (by intro d hd; fin_cases hd <;> norm_num)⟩

/-- C10: `create_dji_vertical_grid` bounds height but not width: for three
admissible vertical-DJI images with unequal positive aspect ratios below 0.9
(at `max_width = 100`, `max_height = 1000`, default margin 4, column width
48), the second image's computed display width `384/5 = 76.8` exceeds its
column width and the top row's total rendered width `48 + 76.8 + 4 = 128.8`
exceeds `max_width`. -/
theorem grid_width_overflow :
    ∃ g, create_dji_vertical_grid [overflowA, overflowB, overflowC] 100 1000 none =
        Except.ok (some g) ∧
      classify overflowA = Bucket.verticalDji ∧
      classify overflowB = Bucket.verticalDji ∧
      classify overflowC = Bucket.verticalDji ∧
      0 < overflowA.ar ∧ 0 < overflowB.ar ∧ 0 < overflowC.ar ∧
      overflowA.ar ≠ overflowB.ar ∧
      g.top_cells = [(overflowA, 48), (overflowB, 384/5)] ∧
      g.col_width = 48 ∧ g.col_width < 384/5 ∧ 100 < 48 + 384/5 + g.margin := by
  refine ⟨{ margin := 4, col_width := 48, top_h := 96, bottom_h := 96, v_margin := 4,
            scale := 1, top_cells := [(overflowA, 48), (overflowB, 384/5)],
            bottom_cells := [(overflowC, 48)] }, ?_, ?_, ?_, ?_, ?_, ?_, ?_, ?_, rfl, rfl,
          by norm_num, by norm_num⟩
  · norm_num [create_dji_vertical_grid, grid_row_height, listMaxQ, overflowA, overflowB,
      overflowC, HORIZONTAL_MARGIN, VERTICAL_MARGIN, max_def]
  · have hdji : containsDji "dji_0001.jpg" = true := by decide
    norm_num [classify, is_vertical_dji, overflowA, VERTICAL_THRESHOLD, hdji,
      decide_eq_true_eq]
  · have hdji : containsDji "dji_0002.jpg" = true := by decide
    norm_num [classify, is_vertical_dji, overflowB, VERTICAL_THRESHOLD, hdji,
      decide_eq_true_eq]
  · have hdji : containsDji "dji_0003.jpg" = true := by decide
    norm_num [classify, is_vertical_dji, overflowC, VERTICAL_THRESHOLD, hdji,
      decide_eq_true_eq]
  · norm_num [overflowA]
  · norm_num [overflowB]
  · norm_num [overflowC]
  · norm_num [overflowA, overflowB]

/-- C9: the Weighted Row Packer never silently drops images: row size 1 is
always a candidate when at least one image remains, so the early-termination
`break` branch is unreachable (the returned flag is always `false`), and the
emitted row groups form an ordered partition of the input — concatenating
them in order gives back exactly the input list. -/
theorem pack_partition {σ : Type} (pick : PickFn σ) (s : σ) (l : List ImgData) :
    (packLoop pick s l).2.2 = false ∧
    (packLoop pick s l).1.flatten = l ∧
    (∀ n : ℕ, 1 ∈ possible_choices (n + 1)) := by
  have main : ∀ (n : ℕ) (s' : σ) (l' : List ImgData), l'.length ≤ n →
      (packLoop pick s' l').2.2 = false ∧ (packLoop pick s' l').1.flatten = l' := by
    intro n
    induction n with
    | zero =>
      intro s' l' hl
      have hnil : l' = [] := List.length_eq_zero.mp (Nat.le_zero.mp hl)
      subst hnil
      simp [packLoop]
    | succ n ihn =>
      intro s' l' hl
      match l' with
      | [] => simp [packLoop]
      | x :: xs =>
        cases hxe : xs.isEmpty with
        | true =>
          rw [List.isEmpty_iff] at hxe
          subst hxe
          simp [packLoop]
        | false =>
          have hc : (possible_choices (x :: xs).length).isEmpty = false := by
            rw [List.isEmpty_eq_false]
            intro hemp
            have h1 : (1 : ℕ) ∈ possible_choices (x :: xs).length := by
              simpa using one_mem_pc xs.length
            rw [hemp] at h1
            simp at h1
          rw [packLoop_cons pick s' x xs hxe hc]
          have hlt : ((x :: xs).drop
              (drawTarget pick s' (possible_choices (x :: xs).length)).1).length ≤ n := by
            have h1 := one_le_drawTarget pick s' (xs.length + 1)
            simp only [List.length_drop, List.length_cons]
            simp only [List.length_cons] at hl
            omega
          obtain ⟨ihb, ihf⟩ := ihn _ _ hlt
          refine ⟨ihb, ?_⟩
          rw [List.flatten_cons, ihf]
          exact List.take_append_drop _ _
  exact ⟨(main l.length s l le_rfl).1, (main l.length s l le_rfl).2, fun n => one_mem_pc n⟩

/-- C4: the Weighted Row Packer is deterministic in the seed: for any
deterministic generator, seeding function, seed and image list, two runs
over the same list with the same seed produce identical sequences of chosen
row sizes and identical row groupings. -/
theorem pack_determinism {σ : Type} (pick : PickFn σ) (init : ℕ → σ)
    (seed1 seed2 : ℕ) (l1 l2 : List ImgData)
    (hs : seed1 = seed2) (hl : l1 = l2) :
    (packLoop pick (init seed1) l1).1.map List.length =
      (packLoop pick (init seed2) l2).1.map List.length ∧
    (packLoop pick (init seed1) l1).1 = (packLoop pick (init seed2) l2).1 := by
  subst hs
  subst hl
  exact ⟨rfl, rfl⟩

/-- The aspect-ratio sum of a non-empty list of positive ratios is positive. -/
theorem total_ar_pos (l : List ImgData) (hne : l ≠ []) (hpos : ∀ d ∈ l, 0 < d.ar) :
    0 < total_ar l := by
  cases l with
  | nil => exact absurd rfl hne
  | cons d ds =>
    rw [total_ar, List.map_cons, List.sum_cons]
    have h1 : 0 < d.ar := hpos d (List.mem_cons_self d ds)
    have h2 : 0 ≤ (ds.map (fun e => e.ar)).sum :=
      List.sum_nonneg (fun q hq => by
        obtain ⟨e, he, hqe⟩ := List.mem_map.mp hq
        rw [← hqe]
        exact le_of_lt (hpos e (List.mem_cons_of_mem d he)))
    linarith

/-- A non-empty group of positive aspect ratios always gets a row. -/
theorem create_image_row_pos_some (l : List ImgData) (mw mh : ℚ) (cm : Option ℚ)
    (hne : l ≠ []) (hpos : ∀ d ∈ l, 0 < d.ar) :
    ∃ r, create_image_row l mw mh cm = some r := by
  have hE : l.isEmpty = false := by simp [List.isEmpty_eq_false, hne]
  have hS : total_ar l ≠ 0 := ne_of_gt (total_ar_pos l hne hpos)
  unfold create_image_row
  rw [hE]
  simp only [Bool.false_eq_true, if_false, if_neg hS]
  exact ⟨_, rfl⟩

/-- The priority-1 loop equals, chunk by chunk, the per-chunk mapping
`djiChunkLayout`, and sends exactly the 1-image leftover chunks to
`dji_leftovers`. -/
theorem processDji_chunks (mw mh : ℚ) (hm : DJI_DIPTYCH_MARGIN ≤ mw) :
    ∀ l : List ImgData, (∀ d ∈ l, 0 < d.ar) →
      processDjiVerticals mw mh l =
        Except.ok ((chunks4 l).filterMap (djiChunkLayout mw mh),
          ((chunks4 l).filter (fun c => decide (c.length = 1))).flatten) := by
  intro l
  induction l using chunks4.induct with
  | case1 =>
    intro _
    simp [processDjiVerticals, chunks4]
  | case2 x xs ih =>
    intro hpos
    have hrec := ih (fun d hd => hpos d (List.mem_of_mem_drop hd))
    have hpostake : ∀ d ∈ (x :: xs).take 4, 0 < d.ar :=
      fun d hd => hpos d (List.mem_of_mem_take hd)
    have hcne : (x :: xs).take 4 ≠ [] := by
      rw [Ne, List.take_eq_nil_iff]
      push_neg
      exact ⟨by omega, by simp⟩
    rw [chunks4]
    by_cases h2 : ((x :: xs).take 4).length = 2
    · obtain ⟨r, hr⟩ := create_image_row_pos_some ((x :: xs).take 4) mw mh
        (some DJI_DIPTYCH_MARGIN) hcne hpostake
      simp only [processDjiVerticals, h2, if_true, hr, hrec, djiChunkLayout,
        List.filterMap_cons, List.filter_cons]
      norm_num
    · by_cases h3 : 3 ≤ ((x :: xs).take 4).length
      · have h4 : ((x :: xs).take 4).length ≤ 4 := by
          rw [List.length_take]
          omega
        obtain ⟨g, hg⟩ := create_dji_grid_ok ((x :: xs).take 4) mw mh
          (some DJI_DIPTYCH_MARGIN) h3 h4 hpostake (by simpa using hm)
        simp only [processDjiVerticals, h2, h3, if_true, if_false, hg, hrec,
          djiChunkLayout, List.filterMap_cons, List.filter_cons]
        norm_num
        have hxs : xs ≠ [] := by
          intro hxnil
          subst hxnil
          simp at h3
        rw [if_neg hxs]
      · have hlb : 1 ≤ ((x :: xs).take 4).length := by
          have := List.length_pos.mpr hcne
          omega
        have h1 : ((x :: xs).take 4).length = 1 := by omega
        simp only [processDjiVerticals, h2, h3, h1, hrec, djiChunkLayout,
          List.filterMap_cons, List.filter_cons]
        norm_num

/-- C5: the vertical-DJI images of a section are chunked in original order
into groups of up to 4 (the `[i:i+4]` slices); a chunk of exactly 2 is laid
out via `create_image_row` with the enlarged `DJI_DIPTYCH_MARGIN`, a chunk
of 3 or 4 via `create_dji_vertical_grid`, and a leftover chunk of exactly 1
is sent to the leftover list (to be appended to the "other" bucket) rather
than laid out alone. -/
theorem dji_vertical_chunking (mw mh : ℚ) (l : List ImgData)
    (hm : DJI_DIPTYCH_MARGIN ≤ mw) (hpos : ∀ d ∈ l, 0 < d.ar) :
    processDjiVerticals mw mh l =
      Except.ok ((chunks4 l).filterMap (djiChunkLayout mw mh),
        ((chunks4 l).filter (fun c => decide (c.length = 1))).flatten) :=
  processDji_chunks mw mh hm l hpos

/-- Witness for C5: five vertical-DJI images (one 4-grid plus one leftover)
at `max_width = 100`, `max_height = 500`. -/
theorem dji_vertical_chunking_witness :
    processDjiVerticals 100 500
        [djiHalf "dji_1", djiHalf "dji_2", djiHalf "dji_3", djiHalf "dji_4",
         djiHalf "dji_5"] =
      Except.ok
        ((chunks4 [djiHalf "dji_1", djiHalf "dji_2", djiHalf "dji_3", djiHalf "dji_4",
            djiHalf "dji_5"]).filterMap (djiChunkLayout 100 500),
         ((chunks4 [djiHalf "dji_1", djiHalf "dji_2", djiHalf "dji_3", djiHalf "dji_4",
            djiHalf "dji_5"]).filter (fun c => decide (c.length = 1))).flatten) :=
  dji_vertical_chunking 100 500
    [djiHalf "dji_1", djiHalf "dji_2", djiHalf "dji_3", djiHalf "dji_4", djiHalf "dji_5"]
    (by norm_num [DJI_DIPTYCH_MARGIN])
    (by intro d hd; fin_cases hd <;> norm_num [djiHalf])

/-- Every image a partition component holds comes from the section. -/
theorem partitionSection_subsets (data : List ImgData) :
    (∀ d ∈ (partitionSection data).1, d ∈ data) ∧
    (∀ d ∈ (partitionSection data).2.1, d ∈ data) ∧
    (∀ d ∈ (partitionSection data).2.2.1, d ∈ data) ∧
    (∀ d ∈ (partitionSection data).2.2.2.1, d ∈ data) ∧
    (∀ d ∈ (partitionSection data).2.2.2.2, d ∈ data) := by
  induction data with
  | nil => simp [partitionSection]
  | cons a rest ih =>
    obtain ⟨ih1, ih2, ih3, ih4, ih5⟩ := ih
    rw [partitionSection]
    split_ifs <;>
      refine ⟨fun d hd => ?_, fun d hd => ?_, fun d hd => ?_, fun d hd => ?_,
        fun d hd => ?_⟩ <;>
      simp only [List.mem_cons] at hd ⊢ <;>
      tauto

/-- The 4-slices of a list concatenate back to the list. -/
theorem chunks4_flatten (l : List ImgData) : (chunks4 l).flatten = l := by
  induction l using chunks4.induct with
  | case1 => simp [chunks4]
  | case2 x xs ih =>
    rw [chunks4, List.flatten_cons, ih]
    exact List.take_append_drop 4 (x :: xs)

/-- Appending a block for a possibly-empty list is unconditional. -/
theorem ite_isEmpty_append {α β : Type} (c : List α) (a : List β) (f : α → β) :
    (if c.isEmpty then a else a ++ c.map f) = a ++ c.map f := by
  cases c <;> simp

/-- Extending `others` with a possibly-empty leftover list is unconditional. -/
theorem ite_isEmpty_extend {α : Type} (c a : List α) :
    (if c.isEmpty then a else a ++ c) = a ++ c := by
  cases c <;> simp

/-- Skipping the packer on an empty `others` list changes nothing. -/
theorem ite_isEmpty_pack {σ : Type} (pick : PickFn σ) (s : σ) (ot2 : List ImgData)
    (mw mh : ℚ) (sl4 : List (Option Flowable)) :
    (if ot2.isEmpty then (sl4, s)
     else (sl4 ++ (create_layouts_for_remaining_images pick s ot2 mw mh).1,
           (create_layouts_for_remaining_images pick s ot2 mw mh).2.1)) =
    (sl4 ++ (create_layouts_for_remaining_images pick s ot2 mw mh).1,
     (create_layouts_for_remaining_images pick s ot2 mw mh).2.1) := by
  cases ot2 with
  | nil => simp [create_layouts_for_remaining_images]
  | cons a b => simp

/-- Skipping the packer on an empty `others` list changes nothing (result
form). -/
theorem ite_isEmpty_pack_ok {σ : Type} (pick : PickFn σ) (s : σ)
    (ot2 : List ImgData) (mw mh : ℚ) (sl4 : List (Option Flowable)) :
    (if ot2.isEmpty then
        (Except.ok (sl4, s) : Except String (List (Option Flowable) × σ))
     else Except.ok (sl4 ++ (create_layouts_for_remaining_images pick s ot2 mw mh).1,
            (create_layouts_for_remaining_images pick s ot2 mw mh).2.1)) =
    Except.ok (sl4 ++ (create_layouts_for_remaining_images pick s ot2 mw mh).1,
      (create_layouts_for_remaining_images pick s ot2 mw mh).2.1) := by
  cases ot2 with
  | nil => simp [create_layouts_for_remaining_images]
  | cons a b => simp

/-- The step-4 `for` loop appends each layout unit followed by a
`Spacer(1, 10)`. -/
theorem appendLayoutsToStory_eq (sl : List (Option Flowable)) :
    ∀ story : List StoryElem,
      appendLayoutsToStory story sl =
        story ++ sl.flatMap (fun u => [u, some (Flowable.spacer 1 10)]) := by
  induction sl with
  | nil =>
    intro story
    simp [appendLayoutsToStory]
  | cons u us ih =>
    intro story
    have h1 : appendLayoutsToStory story (u :: us) =
        appendLayoutsToStory (story ++ [u, some (Flowable.spacer 1 10)]) us := rfl
    rw [h1, ih]
    simp

/-- Witness for C4: the constant-index generator seeded twice with 7 on the
same one-image list. -/
theorem pack_determinism_witness :
    (packLoop constPick ((fun n => n) 7) [sampleOther]).1.map List.length =
      (packLoop constPick ((fun n => n) 7) [sampleOther]).1.map List.length ∧
    (packLoop constPick ((fun n => n) 7) [sampleOther]).1 =
      (packLoop constPick ((fun n => n) 7) [sampleOther]).1 :=
  pack_determinism constPick (fun n => n) 7 7 [sampleOther] [sampleOther] rfl rfl

/-- C6: for every section of positive aspect ratios (with an admissible
diptych margin), the layout units are assembled in the fixed priority order —
vertical-DJI rows/grids first, then each full-width image as its own
single-image row, then each panoramic image, then each landscape-DJI image,
then the packed rows of the remaining "other" images (with the vertical-DJI
leftovers folded in) — and the story append step places a fixed
`Spacer(1, 10)` after every appended layout unit. -/
theorem section_priority_order {σ : Type} (pick : PickFn σ) (s : σ)
    (data : List ImgData) (mw mh : ℚ) (story : List StoryElem)
    (hm : DJI_DIPTYCH_MARGIN ≤ mw) (hpos : ∀ d ∈ data, 0 < d.ar) :
    ∃ djiFlows leftovers sl s1,
      processDjiVerticals mw mh (partitionSection data).2.1 =
        Except.ok (djiFlows, leftovers) ∧
      process_section_layouts pick s data mw mh = Except.ok (sl, s1) ∧
      sl = djiFlows.map some
          ++ (partitionSection data).1.map
              (fun d => (create_image_row [d] mw mh none).map Flowable.row)
          ++ (partitionSection data).2.2.2.1.map
              (fun d => (create_image_row [d] mw mh none).map Flowable.row)
          ++ (partitionSection data).2.2.1.map
              (fun d => (create_image_row [d] mw mh none).map Flowable.row)
          ++ (create_layouts_for_remaining_images pick s
              ((partitionSection data).2.2.2.2 ++ leftovers) mw mh).1 ∧
      s1 = (create_layouts_for_remaining_images pick s
              ((partitionSection data).2.2.2.2 ++ leftovers) mw mh).2.1 ∧
      appendLayoutsToStory story sl =
        story ++ sl.flatMap (fun u => [u, some (Flowable.spacer 1 10)]) := by
  have hdv : ∀ d ∈ (partitionSection data).2.1, 0 < d.ar :=
    fun d hd => hpos d ((partitionSection_subsets data).2.1 d hd)
  have hdji := processDji_chunks mw mh hm (partitionSection data).2.1 hdv
  have hcall : (if (partitionSection data).2.1.isEmpty then
        Except.ok (([] : List Flowable), ([] : List ImgData))
      else processDjiVerticals mw mh (partitionSection data).2.1) =
      Except.ok
        ((chunks4 (partitionSection data).2.1).filterMap (djiChunkLayout mw mh),
         ((chunks4 (partitionSection data).2.1).filter
           (fun c => decide (c.length = 1))).flatten) := by
    by_cases hdve : (partitionSection data).2.1.isEmpty = true
    · have hnil : (partitionSection data).2.1 = [] := List.isEmpty_iff.mp hdve
      rw [if_pos hdve, hnil]
      simp [chunks4]
    · rw [if_neg hdve]
      exact hdji
  refine ⟨_, _, _, _, hdji, ?_, rfl, rfl, appendLayoutsToStory_eq _ story⟩
  simp only [process_section_layouts]
  rw [hcall]
  simp only [ite_isEmpty_extend, ite_isEmpty_append, ite_isEmpty_pack_ok]

/-- Witness for C6 at a one-image section (bucket "other") with the
constant-index generator. -/
theorem section_priority_order_witness :
    ∃ djiFlows leftovers sl s1,
      processDjiVerticals 100 50 (partitionSection [sampleOther]).2.1 =
        Except.ok (djiFlows, leftovers) ∧
      process_section_layouts constPick 0 [sampleOther] 100 50 = Except.ok (sl, s1) ∧
      sl = djiFlows.map some
          ++ (partitionSection [sampleOther]).1.map
              (fun d => (create_image_row [d] 100 50 none).map Flowable.row)
          ++ (partitionSection [sampleOther]).2.2.2.1.map
              (fun d => (create_image_row [d] 100 50 none).map Flowable.row)
          ++ (partitionSection [sampleOther]).2.2.1.map
              (fun d => (create_image_row [d] 100 50 none).map Flowable.row)
          ++ (create_layouts_for_remaining_images constPick 0
              ((partitionSection [sampleOther]).2.2.2.2 ++ leftovers) 100 50).1 ∧
      s1 = (create_layouts_for_remaining_images constPick 0
              ((partitionSection [sampleOther]).2.2.2.2 ++ leftovers) 100 50).2.1 ∧
      appendLayoutsToStory emptyStory sl =
        emptyStory ++ sl.flatMap (fun u => [u, some (Flowable.spacer 1 10)]) :=
  section_priority_order constPick 0 [sampleOther] 100 50 emptyStory
    (by norm_num [DJI_DIPTYCH_MARGIN])
    (by intro d hd; fin_cases hd <;> norm_num [sampleOther])

/-- C7 counterexample: an image reference whose file is found but cannot be
decoded (`decode = none`) gets no placeholder in the story, is not recorded
as missing, and is counted as processed — it is simply laid out with the
default aspect ratio 1.5. -/
theorem missing_placeholder_counterexample :
    preprocessSectionImages
        [{ filepath := "broken.jpg", is_full_width := false,
           found := some "broken.jpg", decode := none, procError := false,
           optimizedToBuffer := false }] =
      ([⟨3/2, "broken.jpg", false⟩], [], [], 0, 1) := by rfl

/-- C7 amended: a reference whose file is missing gets the
`[Image not found: ...]` placeholder in its place, is recorded as missing,
and is excluded from the processed count; a reference that raises during
per-image processing is recorded as missing and excluded but gets no
placeholder; a found reference whose image cannot be decoded is processed
with the default aspect ratio 1.5 and counted; processing always continues
over the remaining images and no exception propagates (the pre-pass is a
total function), and the two statistics counters sum to the number of images
actually kept. -/
theorem preprocess_missing_behavior (lines : List ImgLine) :
    preprocessSectionImages lines =
      (lines.filterMap (fun ln => match ln.found with
         | some p =>
           if ln.procError then none
           else some ⟨get_image_ar ln.decode, p, ln.is_full_width⟩
         | none => none),
       lines.filterMap (fun ln => match ln.found with
         | some _ => none
         | none => some (some (Flowable.text
             ("[Image not found: " ++ stripDotSlash ln.filepath ++ "]")))),
       lines.filterMap (fun ln => match ln.found with
         | some _ => if ln.procError then some (stripDotSlash ln.filepath) else none
         | none => some (stripDotSlash ln.filepath)),
       (lines.filter (fun ln =>
         ln.found.isSome && !ln.procError && ln.optimizedToBuffer)).length,
       (lines.filter (fun ln =>
         ln.found.isSome && !ln.procError && !ln.optimizedToBuffer)).length) ∧
    (preprocessSectionImages lines).2.2.2.1 + (preprocessSectionImages lines).2.2.2.2 =
      (preprocessSectionImages lines).1.length := by
  have main : preprocessSectionImages lines =
      (lines.filterMap (fun ln => match ln.found with
         | some p =>
           if ln.procError then none
           else some ⟨get_image_ar ln.decode, p, ln.is_full_width⟩
         | none => none),
       lines.filterMap (fun ln => match ln.found with
         | some _ => none
         | none => some (some (Flowable.text
             ("[Image not found: " ++ stripDotSlash ln.filepath ++ "]")))),
       lines.filterMap (fun ln => match ln.found with
         | some _ => if ln.procError then some (stripDotSlash ln.filepath) else none
         | none => some (stripDotSlash ln.filepath)),
       (lines.filter (fun ln =>
         ln.found.isSome && !ln.procError && ln.optimizedToBuffer)).length,
       (lines.filter (fun ln =>
         ln.found.isSome && !ln.procError && !ln.optimizedToBuffer)).length) := by
    induction lines with
    | nil => rfl
    | cons ln rest ih =>
      rw [preprocessSectionImages, ih]
      rcases hf : ln.found with _ | p
      · simp [hf, List.filterMap_cons, List.filter_cons]
      · by_cases hpe : ln.procError
        · simp [hf, hpe, List.filterMap_cons, List.filter_cons]
        · by_cases ho : ln.optimizedToBuffer
          · simp [hf, hpe, ho, List.filterMap_cons, List.filter_cons]
          · simp [hf, hpe, ho, List.filterMap_cons, List.filter_cons]
  refine ⟨main, ?_⟩
  clear main
  induction lines with
  | nil => rfl
  | cons ln rest ih =>
    rw [preprocessSectionImages]
    rcases hf : ln.found with _ | p
    · simpa using ih
    · by_cases hpe : ln.procError
      · simp only [hpe, if_true]
        simpa using ih
      · by_cases ho : ln.optimizedToBuffer
        · simp only [hpe, ho, if_true, if_false, Bool.false_eq_true]
          simp only [List.length_cons]
          omega
        · simp only [hpe, ho, if_true, if_false, Bool.false_eq_true]
          simp only [List.length_cons]
          omega

end Portfolio
